import Mathlib

/-!
Shallow embedding of the Rogue shader compiler backend
(src/imagination/rogue: rogue_compile.c, rogue_validate.c), covering the
control-flow lowering (execution-mask counter model), the tg4 gather sample
reorder, operand/UPCK/block validation, the ALU type-conversion dispatch
table, the pass pipeline, vertex-shader input loads and mutex translation.
-/

namespace Rogue

/-! ## Instruction model for control-flow lowering (rogue_compile.c) -/

/-- Opcodes that appear in control-flow lowering (from rogue_compile.c
control-flow translation: MOV, SETPRED, conditional-mask ops, branch). -/
inductive RogueOp
  | MOV
  | SETPRED
  | CNDST
  | CNDEF
  | CNDEND
  | CNDLT
  | BR
deriving DecidableEq, Repr

/-- Control op modifiers used in control-flow lowering
(ROGUE_CTRL_OP_MOD_*). `noMod` is the absence of a set modifier. -/
inductive OpMod
  | noMod
  | always
  | never
  | p0True
  | p0False
  | allinst
deriving DecidableEq, Repr

/-- Instruction execution conditions (ROGUE_EXEC_COND_*). `default` is
the absence of an explicitly set condition. -/
inductive ExecCond
  | default
  | peAny
  | p0True
deriving DecidableEq, Repr

/-- Operand references used in control-flow lowering: the execution mask
counter, hardware I/O slots PE and P0, immediates, values, registers and
branch targets (block ids). -/
inductive Ref
  | emc
  | ioPE
  | ioP0
  | imm (n : Nat)
  | val (n : Nat)
  | reg (idx : Nat)
  | block (id : Nat)
deriving DecidableEq, Repr

/-- An emitted instruction: opcode, destinations, sources, control-op
modifier, execution condition and provenance comment. -/
structure Instr where
  op : RogueOp
  dsts : List Ref
  srcs : List Ref
  opMod : OpMod
  execCond : ExecCond
  comment : String
deriving DecidableEq, Repr

/-- `trans_nir_jump_break_cont` (rogue_compile.c:538): a `continue`
(`cont = true`) emits `MOV emc, imm(loop_nestings + 1)`; a `break` emits
`MOV emc, imm(loop_nestings + 2)`; each is followed by a forced flush
(`CNDEF ... NEVER`, exec cond PE_ANY, comment "flush_Pe") before a new
block (synchronization point) is pushed. -/
def trans_nir_jump_break_cont (loopNestings : Nat) (cont : Bool) : List Instr :=
  [ { op := .MOV
      dsts := [.emc]
      srcs := [.imm (loopNestings + (if cont then 1 else 2))]
      opMod := .noMod
      execCond := .default
      comment := if cont then "continue" else "break" },
    { op := .CNDEF
      dsts := [.ioPE, .emc]
      srcs := [.emc, .val 0]
      opMod := .never
      execCond := .peAny
      comment := "flush_Pe" } ]

/-- `rogue_init_emc` (rogue_compile.c:3795): on the first divergent
construct (when `emc_initialised` is false) emit one mask-initialisation
`CNDST PE, emc, imm 0, val 1` with op mod ALWAYS and exec cond PE_ANY. -/
def rogue_init_emc (emcInitialised : Bool) : List Instr :=
  if emcInitialised then []
  else
    [ { op := .CNDST
        dsts := [.ioPE, .emc]
        srcs := [.imm 0, .val 1]
        opMod := .always
        execCond := .peAny
        comment := "cf_init" } ]

/-- `trans_nir_if` (rogue_compile.c:3816): emitted instruction sequence,
with the translated then/else bodies passed in as lists (the recursion
into `trans_nir_cf_nodes`).  `brSkip` models
`nif->control == nir_selection_control_dont_flatten`; the skip branches
are inserted before the then/else blocks via cursor manipulation, so in
program order they appear immediately before those bodies. -/
def trans_nir_if (emcInitialised : Bool) (condReg : Nat)
    (hasThen hasElse : Bool) (thenBody elseBody : List Instr)
    (brSkip : Bool) : List Instr :=
  rogue_init_emc emcInitialised ++
  [ { op := .SETPRED
      dsts := [.ioP0]
      srcs := [.reg condReg]
      opMod := .noMod
      execCond := .default
      comment := "" },
    { op := .CNDST
      dsts := [.ioPE, .emc]
      srcs := [.emc, .val 1]
      opMod := if hasThen then .p0True else .p0False
      execCond := .peAny
      comment := "" } ] ++
  (if brSkip && hasThen then
    [ { op := .BR
        dsts := []
        srcs := [.block (if hasElse then 1 else 2)]
        opMod := .allinst
        execCond := .default
        comment := "" } ]
  else []) ++
  (if hasThen then thenBody else []) ++
  (if hasThen && hasElse then
    [ { op := .CNDEF
        dsts := [.ioPE, .emc]
        srcs := [.emc, .val 1]
        opMod := .always
        execCond := .peAny
        comment := "" } ]
  else []) ++
  (if brSkip && hasElse then
    [ { op := .BR
        dsts := []
        srcs := [.block 2]
        opMod := .allinst
        execCond := .default
        comment := "" } ]
  else []) ++
  (if hasElse then elseBody else []) ++
  [ { op := .CNDEND
      dsts := [.ioPE, .emc]
      srcs := [.emc, .val 1]
      opMod := .noMod
      execCond := .peAny
      comment := "" } ]

/-- `trans_nir_loop` (rogue_compile.c:3918): emitted instruction sequence
with the translated loop body passed in as a list.  The `br_skip` branch
(unconditionally enabled in the source) is inserted before the
`loop_body` block, i.e. right after the `loop_init` mask increment. -/
def trans_nir_loop (emcInitialised : Bool) (body : List Instr) : List Instr :=
  rogue_init_emc emcInitialised ++
  [ { op := .CNDST
      dsts := [.ioPE, .emc]
      srcs := [.emc, .val 2]
      opMod := .always
      execCond := .peAny
      comment := "loop_init" },
    { op := .BR
      dsts := []
      srcs := [.block 3]
      opMod := .allinst
      execCond := .default
      comment := "" } ] ++
  body ++
  [ { op := .CNDEND
      dsts := [.ioPE, .emc]
      srcs := [.emc, .val 1]
      opMod := .noMod
      execCond := .peAny
      comment := "" },
    { op := .CNDST
      dsts := [.ioPE, .emc]
      srcs := [.emc, .val 1]
      opMod := .always
      execCond := .peAny
      comment := "" },
    { op := .CNDLT
      dsts := [.ioPE, .emc, .ioP0]
      srcs := [.emc, .val 2]
      opMod := .always
      execCond := .peAny
      comment := "loop_test" },
    { op := .BR
      dsts := []
      srcs := [.block 0]
      opMod := .noMod
      execCond := .p0True
      comment := "" } ]

/-- An instruction manipulates the execution mask counter when it is one
of the conditional-mask ops (CNDST/CNDEF/CNDEND/CNDLT), all of which
write `emc`. -/
def Instr.isEmcManip (i : Instr) : Bool :=
  match i.op with
  | .CNDST => true
  | .CNDEF => true
  | .CNDEND => true
  | .CNDLT => true
  | _ => false

/-! ## Per-lane EMC semantics for loop lowering

Modelled from the spec: the conditional-mask instruction semantics are
hardware ISA behaviour not present under src/; they are taken from spec
section 4.2 and the source comments in `trans_nir_loop`
(rogue_compile.c:3950, 3957): the loop-entry `CNDST ALWAYS 2` increments
the counter of any non-running lane by 2; a break/continue `MOV` executes only
on active lanes (counter 0); the end-of-body `CNDEND 1` followed by
`CNDST ALWAYS 1` maps counters 0/1 back to 0 ("run again") and leaves
counters greater than 1 unchanged; the `CNDLT ... 2` loop test sets P0,
and the back-edge branch is taken, exactly when the counter of some lane is
below 2. -/

/-- Loop-entry mask adjustment (`CNDST ALWAYS 2`, comment "loop_init"):
non-running lanes (counter > 0) are incremented by 2. -/
def loopInitStep (e : Nat) : Nat := if e = 0 then e else e + 2

/-- A `break`/`continue` `MOV emc, imm(nesting + 2 or 1)` executes only on
active lanes (counter 0). -/
def jumpStep (nesting : Nat) (cont : Bool) (e : Nat) : Nat :=
  if e = 0 then nesting + (if cont then 1 else 2) else e

/-- End-of-body restore (`CNDEND 1` then `CNDST ALWAYS 1`): counters 0 and
1 become 0 (run again); counters above 1 are unchanged. -/
def loopEndStep (e : Nat) : Nat := if e ≤ 1 then 0 else e

/-- The `CNDLT ... val 2` loop test: the back-edge branch is taken exactly
when the counter of some lane is below 2. -/
def backEdgeTaken (lanes : List Nat) : Bool := lanes.any (fun e => e < 2)

/-- Iterate the lowered loop: each trip runs the body on every lane, then
the end-of-body restore, then tests the back edge.  Returns the final
lane counters and the number of body executions (0 if fuel runs out
before the first trip completes is impossible: each call performs one
trip). -/
def runLoopAux (body : Nat → Nat) : Nat → List Nat → List Nat × Nat
  | 0, lanes => (lanes, 0)
  | fuel + 1, lanes =>
    let lanes' := lanes.map (fun e => loopEndStep (body e))
    if backEdgeTaken lanes' then
      let r := runLoopAux body fuel lanes'
      (r.1, r.2 + 1)
    else
      (lanes', 1)

/-- The full lowered loop: loop-entry mask adjustment, then iterated body
trips with back-edge testing. -/
def lowerLoopRun (body : Nat → Nat) (fuel : Nat) (lanes : List Nat) :
    List Nat × Nat :=
  runLoopAux body fuel (lanes.map loopInitStep)

/-! ## Gather (tg4) sample reorder (rogue_compile.c:972) -/

/-- The fixed `sample_map` table in `rogue_nir_emit_gather`. -/
def sample_map : List Nat := [2, 3, 1, 0]

/-- One `MOV` emitted by the gather reorder loop: destination component
`dstComp` is assigned from offset `srcOffset` within the 16-register
sample-data array (`sample_map[i] * 4 + component`). -/
structure GatherMov where
  dstComp : Nat
  srcOffset : Nat
deriving DecidableEq, Repr

/-- The reorder loop of `rogue_nir_emit_gather`: for each destination
component `i` (0..3), move from sample-data offset
`sample_map[i] * 4 + component`. -/
def rogue_nir_emit_gather (component : Nat) : List GatherMov :=
  (List.range 4).map fun i => ⟨i, sample_map.getD i 0 * 4 + component⟩

/-- The hardware sample slot a gather move reads from (its offset within
the sample-data array divided by the 4 channels per sample). -/
def GatherMov.slot (m : GatherMov) : Nat := m.srcOffset / 4

/-! ## Operand size validation (rogue_validate.c: validate_dst/validate_src) -/

/-- A validator-facing operand reference: a register (plain or indexed),
a register array of a given size, or any of the other ref kinds
(value, immediate, I/O, drc), which the size check ignores. -/
inductive ValRef
  | reg (indexed : Bool)
  | regarray (size : Nat)
  | val
  | imm
  | io
  | drc
deriving DecidableEq, Repr

/-- `rogue_ref_is_reg_or_regarray`. -/
def ValRef.isRegOrRegarray : ValRef → Bool
  | .reg _ => true
  | .regarray _ => true
  | _ => false

/-- Validator size-check diagnostics from validate_dst/validate_src. -/
inductive SizeErr
  | regarraySizeMismatch (expected got : Nat)
  | expectedRegarray
deriving DecidableEq, Repr

/-- The operand-size portion of `validate_dst`/`validate_src`
(rolled into one function since lines 175-193 and 223-241 are
identical): with a declared stride (`~0U` modelled as `none`), the
expected size is `(stride + 1)`, multiplied by the instruction repeat
when the operand index is in the repeat mask and by the value-number
source value when it is in the value-number mask; a regarray whose
size differs is an error; a non-indexed plain register is an error when
the expected size exceeds 1. -/
def validate_ref_size (ref : ValRef) (stride : Option Nat) (rpt : Nat)
    (repeatMasked : Bool) (valnum : Nat) (valnumMasked : Bool) :
    List SizeErr :=
  match stride with
  | none => []
  | some s =>
    if ref.isRegOrRegarray then
      let size := (s + 1) * (if repeatMasked then rpt else 1) *
        (if valnumMasked then valnum else 1)
      match ref with
      | .regarray sz =>
        if sz ≠ size then [.regarraySizeMismatch size sz] else []
      | .reg indexed =>
        if size > 1 && !indexed then [.expectedRegarray] else []
      | _ => []
    else []

/-- The size the claim ascribes to an operand: the size of a regarray, and 1
for a plain register (which holds one register). -/
def ValRef.claimSize : ValRef → Nat
  | .regarray sz => sz
  | _ => 1

/-- The expected operand size computed in validate_dst/validate_src:
(stride + 1), times the repeat count when the operand index is in the
repeat mask, times the value-number source value when it is in the
value-number mask. -/
def validateSize (s rpt : Nat) (rm : Bool) (valnum : Nat) (vm : Bool) : Nat :=
  (s + 1) * (if rm then rpt else 1) * (if vm then valnum else 1)

/-! ## UPCK element-selector validation (rogue_validate.c:263) -/

/-- The four element-selector source modifiers E0..E3 on source 0 of an
unpack instruction. -/
structure UpckElems where
  e0 : Bool
  e1 : Bool
  e2 : Bool
  e3 : Bool
deriving DecidableEq, Repr

/-- Number of element-selector modifiers set. -/
def UpckElems.count (m : UpckElems) : Nat :=
  (if m.e0 then 1 else 0) + (if m.e1 then 1 else 0) +
  (if m.e2 then 1 else 0) + (if m.e3 then 1 else 0)

/-- `validate_alu_instr_UPCK`: `elems_set` is the disjunction of E0..E3
on source 0; an error is logged when an element is selected with
repeat > 1, or when none is selected with repeat == 1. -/
def validate_alu_instr_UPCK (m : UpckElems) (rpt : Nat) : List String :=
  let elemsSet := m.e0 || m.e1 || m.e2 || m.e3
  if elemsSet && decide (rpt > 1) then
    ["Unpack element must not be selected with repeat > 1."]
  else if !elemsSet && decide (rpt = 1) then
    ["Unpack element must be selected with repeat == 1."]
  else []

/-! ## Block validation (rogue_validate.c:757) -/

/-- Block-validation diagnostics. -/
inductive BlockErr
  | empty
  | noEndInstr
  | multipleEndInstrs
  | endBeforeLast
deriving DecidableEq, Repr

/-- `validate_block`, with each instruction of the block abstracted to
whether `validate_instr` reports it as block-ending, and the following
block abstracted to its instruction count: an empty block is an error;
with zero block-ending instructions the block is accepted exactly when
the next block is a single instruction; more than one block-ender is an
error; a single block-ender that is not the last instruction is an
error. -/
def validate_block (instrs : List Bool) (nextBlockLen : Nat) :
    List BlockErr :=
  if instrs.isEmpty then [.empty]
  else
    let blockEnds := instrs.count true
    if blockEnds = 0 then
      if nextBlockLen ≠ 1 then [.noEndInstr] else []
    else if blockEnds > 1 then [.multipleEndInstrs]
    else if instrs.getLastD false = false then [.endBeforeLast]
    else []

/-! ## ALU type-conversion dispatch (rogue_compile.c:1992) -/

/-- NIR base ALU types appearing in the conversion table. -/
inductive NirType
  | int
  | uint
  | float
  | bool
deriving DecidableEq, Repr

/-- NIR rounding modes. -/
inductive RoundMode
  | undef
  | rtne
  | ru
  | rd
  | rtz
deriving DecidableEq, Repr

/-- The key the `CONV` macro tests: base source type/bits/components,
base destination type/bits/components, rounding mode and saturate flag. -/
structure ConvKey where
  srcType : NirType
  srcBits : Nat
  srcComps : Nat
  dstType : NirType
  dstBits : Nat
  dstComps : Nat
  rnd : RoundMode
  sat : Bool
deriving DecidableEq, Repr

/-- Shorthand constructor mirroring a `CONV(...)` macro use. -/
def conv (st : NirType) (sb sc : Nat) (dt : NirType) (db dc : Nat)
    (r : RoundMode) (sat : Bool) : ConvKey :=
  ⟨st, sb, sc, dt, db, dc, r, sat⟩

/-- Which instruction pattern a matched conversion emits. -/
inductive ConvEmit
  | cselIntZ
  | cselFloatZ
  | mov
  | isxt
  | iand
  | upckInt
  | pckIntMovc
  | upckF16
  | pckF16Movc
deriving DecidableEq, Repr

/-- Bool-to-integer conversion group. -/
def boolIntKeys : List ConvKey :=
  [conv .bool 32 1 .uint 8 1 .undef false,
   conv .bool 32 1 .uint 16 1 .undef false,
   conv .bool 32 1 .uint 32 1 .undef false,
   conv .bool 32 1 .int 8 1 .undef false,
   conv .bool 32 1 .int 16 1 .undef false,
   conv .bool 32 1 .int 32 1 .undef false]

/-- Bool-to-float conversion group. -/
def boolFloatKeys : List ConvKey :=
  [conv .bool 32 1 .float 32 1 .undef false]

/-- Unsigned widening (bitcast/mov) group. -/
def uintWidenKeys : List ConvKey :=
  [conv .uint 8 1 .uint 16 1 .undef false,
   conv .uint 8 1 .uint 32 1 .undef false,
   conv .uint 16 1 .uint 32 1 .undef false]

/-- Signed widening (sign-extend) group. -/
def signExtendKeys : List ConvKey :=
  [conv .int 8 1 .int 16 1 .undef false,
   conv .int 8 1 .int 32 1 .undef false,
   conv .int 16 1 .int 32 1 .undef false]

/-- Narrowing (bitcast/mask) group. -/
def truncKeys : List ConvKey :=
  [conv .int 16 1 .int 8 1 .undef false,
   conv .int 32 1 .int 8 1 .undef false,
   conv .int 32 1 .int 16 1 .undef false,
   conv .uint 16 1 .uint 8 1 .undef false,
   conv .uint 32 1 .uint 8 1 .undef false,
   conv .uint 32 1 .uint 16 1 .undef false]

/-- Integer-to-float group. -/
def intToFloatKeys : List ConvKey :=
  [conv .uint 8 1 .float 32 1 .undef false,
   conv .uint 16 1 .float 32 1 .undef false,
   conv .uint 32 1 .float 32 1 .undef false,
   conv .int 8 1 .float 32 1 .undef false,
   conv .int 16 1 .float 32 1 .undef false,
   conv .int 32 1 .float 32 1 .undef false]

/-- Float-to-integer group. -/
def floatToIntKeys : List ConvKey :=
  [conv .float 32 1 .uint 8 1 .undef false,
   conv .float 32 1 .uint 16 1 .undef false,
   conv .float 32 1 .uint 32 1 .undef false,
   conv .float 32 1 .int 8 1 .undef false,
   conv .float 32 1 .int 16 1 .undef false,
   conv .float 32 1 .int 32 1 .undef false]

/-- Half-to-single float group. -/
def f16ToF32Keys : List ConvKey :=
  [conv .float 16 1 .float 32 1 .undef false]

/-- Single-to-half float group (the only group admitting non-undef
rounding modes). -/
def f32ToF16Keys : List ConvKey :=
  [conv .float 32 1 .float 16 1 .undef false,
   conv .float 32 1 .float 16 1 .rtne false,
   conv .float 32 1 .float 16 1 .rtz false]

/-- The whole conversion dispatch table. -/
def convTable : List ConvKey :=
  boolIntKeys ++ boolFloatKeys ++ uintWidenKeys ++ signExtendKeys ++
  truncKeys ++ intToFloatKeys ++ floatToIntKeys ++ f16ToF32Keys ++
  f32ToF16Keys

/-- The `do { ... } while (0)` dispatch chain of
`trans_nir_intrinsic_convert_alu_types`: the two bool groups set `instr`
without a `break`, the remaining groups `break` out on a match; `none`
models `instr` still NULL at the end of the chain. -/
def convert_alu_types_dispatch (k : ConvKey) : Option ConvEmit :=
  let instr : Option ConvEmit :=
    if k ∈ boolIntKeys then some .cselIntZ else none
  let instr : Option ConvEmit :=
    if k ∈ boolFloatKeys then some .cselFloatZ else instr
  if k ∈ uintWidenKeys then some .mov
  else if k ∈ signExtendKeys then some .isxt
  else if k ∈ truncKeys then some .iand
  else if k ∈ intToFloatKeys then some .upckInt
  else if k ∈ floatToIntKeys then some .pckIntMovc
  else if k ∈ f16ToF32Keys then some .upckF16
  else if k ∈ f32ToF16Keys then some .pckF16Movc
  else instr

/-- The tail of `trans_nir_intrinsic_convert_alu_types`: a matched
combination gets its instruction (plus a provenance comment) and the
function returns; an unmatched one prints an "Unsupported conversion"
diagnostic and hits `unreachable()` — the hard unsupported-input failure
path, modelled as `Except.error`. -/
def trans_nir_intrinsic_convert_alu_types (k : ConvKey) :
    Except String ConvEmit :=
  match convert_alu_types_dispatch k with
  | some e => .ok e
  | none => .error "Unsupported conversion"

/-! ## Pass pipeline (rogue_compile.c:4203 rogue_shader_passes) -/

/-- The shader passes named in `rogue_shader_passes`, including the two
that appear only in commented-out invocations (`copyProp`, `dce`). -/
inductive RoguePass
  | constreg
  | copyProp
  | dce
  | scheduleStRegs
  | lowerPseudoOps
  | scheduleWdf
  | scheduleUvsw
  | trim
  | regalloc
  | lowerLateOps
  | scheduleInstrGroups
deriving DecidableEq, Repr

/-- The pass sequence actually run by `rogue_shader_passes` (every
`ROGUE_PASS_V` invocation, in order; the `rogue_copy_prop` and
`rogue_dce` invocations are commented out in the source and so do not
appear). -/
def rogue_shader_passes : List RoguePass :=
  [.constreg, .scheduleStRegs, .lowerPseudoOps, .constreg,
   .scheduleWdf, .scheduleUvsw, .trim, .regalloc, .lowerLateOps,
   .scheduleInstrGroups]

/-- The ordered step list asserted by the claim: constant
re-materialization, redundant-copy elimination, dead-instruction
elimination, pseudo-instruction lowering, the two write-back scheduling
sub-passes, dead-block trimming, register allocation, late pseudo-op
lowering, a second dead-instruction elimination, final instruction-group
scheduling. -/
def claimedPassOrder : List RoguePass :=
  [.constreg, .copyProp, .dce, .lowerPseudoOps, .scheduleWdf,
   .scheduleUvsw, .trim, .regalloc, .lowerLateOps, .dce,
   .scheduleInstrGroups]

/-- The claimed order with the never-run copy-prop/DCE steps removed. -/
def amendedPassOrder : List RoguePass :=
  [.constreg, .lowerPseudoOps, .scheduleWdf, .scheduleUvsw, .trim,
   .regalloc, .lowerLateOps, .scheduleInstrGroups]

/-! ## Vertex-shader input loads (rogue_compile.c:1538) -/

/-- The per-stage vertex-input description the driver provides through
the pipeline layout (`rogue_vertex_inputs`): per input location, the
number of components provided and the base vertex-input register. -/
structure VertexInputs where
  numInputVars : Nat
  components : Nat → Nat
  base : Nat → Nat

/-- What `trans_nir_intrinsic_load_input_vs` emits for one load. -/
inductive VsLoad
  | movImmF1
  | movVtxin (idx : Nat)
deriving DecidableEq, Repr

/-- The pipeline-layout-present path of
`trans_nir_intrinsic_load_input_vs`: a component the driver does not
provide is replaced by an immediate 1.0f move; otherwise the value is
moved from vertex-input register `base[input] + component`. -/
def trans_nir_intrinsic_load_input_vs (vsInputs : VertexInputs)
    (input component : Nat) : VsLoad :=
  if component ≥ vsInputs.components input then .movImmF1
  else .movVtxin (vsInputs.base input + component)

/-! ## Mutex translation (rogue_compile.c:2368) -/

/-- The mutex state machine of the shader. -/
inductive MutexState
  | released
  | locked
deriving DecidableEq, Repr

/-- Mutex intrinsic operations. -/
inductive MutexOp
  | lock
  | release
deriving DecidableEq, Repr

/-- `trans_nir_intrinsic_mutex_img`: a lock asserts the state is
released and sets it locked; a release asserts the locked bit and sets
the state released.  An assertion failure is `none`. -/
def trans_nir_intrinsic_mutex_img : MutexState → MutexOp → Option MutexState
  | .released, .lock => some .locked
  | .locked, .lock => none
  | .locked, .release => some .released
  | .released, .release => none

/-- Translate a sequence of mutex intrinsics, threading the per-shader
mutex state; `none` when some step violates its assertion. -/
def transMutexSeq (s : MutexState) : List MutexOp → Option MutexState
  | [] => some s
  | op :: ops =>
    match trans_nir_intrinsic_mutex_img s op with
    | some s' => transMutexSeq s' ops
    | none => none

/-- The op a given mutex state requires next for translation to go
through: strict alternation. -/
def expectedOp : MutexState → MutexOp
  | .released => .lock
  | .locked => .release

/-- The alternating sequences starting from a given state: each op is
the one the current state expects. -/
def alternatesFrom (s : MutexState) : List MutexOp → Bool
  | [] => true
  | op :: ops =>
    op = expectedOp s &&
    alternatesFrom (if op = .lock then .locked else .released) ops


/-! ## Helper lemmas -/

/-- Translation of a mutex sequence succeeds from a state exactly when
the sequence strictly alternates, each op being the one the current
state expects. -/
lemma transMutexSeq_isSome (s : MutexState) (ops : List MutexOp) :
    (transMutexSeq s ops).isSome = true ↔ alternatesFrom s ops = true := by
  induction ops generalizing s with
  | nil => simp [transMutexSeq, alternatesFrom]
  | cons op ops ih =>
    cases s <;> cases op <;>
      simp [transMutexSeq, alternatesFrom, trans_nir_intrinsic_mutex_img,
            expectedOp, ih]


/-- The invariant of claim C8: every execution-mask-counter
manipulation instruction in a list carries the any-lane execution
condition. -/
def EmcOk (l : List Instr) : Prop :=
  ∀ i ∈ l, i.isEmcManip = true → i.execCond = .peAny

lemma emcOk_nil : EmcOk [] := by
  intro i hi
  cases hi

lemma emcOk_append {l₁ l₂ : List Instr} (h₁ : EmcOk l₁) (h₂ : EmcOk l₂) :
    EmcOk (l₁ ++ l₂) := by
  intro i hi
  rcases List.mem_append.mp hi with h | h
  exacts [h₁ i h, h₂ i h]

lemma emcOk_ite (c : Bool) {l₁ l₂ : List Instr} (h₁ : EmcOk l₁)
    (h₂ : EmcOk l₂) : EmcOk (if c then l₁ else l₂) := by
  cases c
  · simpa using h₂
  · simpa using h₁

lemma emcOk_cons_peAny {i : Instr} {l : List Instr}
    (h : i.execCond = .peAny) (hl : EmcOk l) : EmcOk (i :: l) := by
  intro j hj
  rcases List.mem_cons.mp hj with rfl | hj
  · intro _; exact h
  · exact hl j hj

lemma emcOk_cons_not_manip {i : Instr} {l : List Instr}
    (h : i.isEmcManip = false) (hl : EmcOk l) : EmcOk (i :: l) := by
  intro j hj
  rcases List.mem_cons.mp hj with rfl | hj
  · intro hm
    rw [h] at hm
    cases hm
  · exact hl j hj

lemma emcOk_init (b : Bool) : EmcOk (rogue_init_emc b) := by
  cases b
  · exact emcOk_cons_peAny rfl emcOk_nil
  · exact emcOk_nil

/-! ## Claim theorems -/

/-- Claim C1: translating `continue` emits a move of immediate
(loop nesting + 1) into the execution mask counter and `break` a move of
(loop nesting + 2), each followed by the forced flush (CNDEF with NEVER,
exec cond PE_ANY); and for a loop whose body unconditionally reaches a
break on the first iteration, starting from all-active lanes, every lane
counter becomes nesting + 2, the back-edge condition (some counter < 2)
evaluates false, and the body executes exactly once. -/
theorem break_cont_emission_and_loop_exits_once
    (n fuel : Nat) (lanes : List Nat)
    (hactive : ∀ e ∈ lanes, e = 0) (hfuel : 0 < fuel) :
    ((trans_nir_jump_break_cont n true).map
        (fun i => (i.op, i.dsts, i.srcs, i.opMod, i.execCond)) =
      [(.MOV, [.emc], [.imm (n + 1)], .noMod, .default),
       (.CNDEF, [.ioPE, .emc], [.emc, .val 0], .never, .peAny)]) ∧
    ((trans_nir_jump_break_cont n false).map
        (fun i => (i.op, i.dsts, i.srcs, i.opMod, i.execCond)) =
      [(.MOV, [.emc], [.imm (n + 2)], .noMod, .default),
       (.CNDEF, [.ioPE, .emc], [.emc, .val 0], .never, .peAny)]) ∧
    (∀ e ∈ (lowerLoopRun (jumpStep 0 false) fuel lanes).1, e = 0 + 2) ∧
    backEdgeTaken ((lanes.map loopInitStep).map
      (fun e => loopEndStep (jumpStep 0 false e))) = false ∧
    (lowerLoopRun (jumpStep 0 false) fuel lanes).2 = 1 := by
  refine ⟨rfl, rfl, ?_⟩
  obtain ⟨f, rfl⟩ : ∃ f, fuel = f + 1 :=
    ⟨fuel - 1, (Nat.succ_pred_eq_of_pos hfuel).symm⟩
  have hconst : (lanes.map loopInitStep).map
      (fun e => loopEndStep (jumpStep 0 false e)) =
      lanes.map (fun _ => 2) := by
    rw [List.map_map]
    refine List.map_congr_left ?_
    intro e he
    simp [hactive e he, loopInitStep, jumpStep, loopEndStep]
  have hback : backEdgeTaken ((lanes.map loopInitStep).map
      (fun e => loopEndStep (jumpStep 0 false e))) = false := by
    rw [hconst]
    simp [backEdgeTaken]
  have hback2 : backEdgeTaken (lanes.map (fun _ => 2)) = false := by
    simp [backEdgeTaken]
  have hrun : lowerLoopRun (jumpStep 0 false) (f + 1) lanes =
      (lanes.map (fun _ => 2), 1) := by
    rw [lowerLoopRun, runLoopAux]
    simp only [hconst, hback2, Bool.false_eq_true, if_false]
  refine ⟨?_, hback, ?_⟩
  · intro e he
    rw [hrun] at he
    rcases List.mem_map.mp he with ⟨a, -, hae⟩
    simpa using hae.symm
  · rw [hrun]

/-- Claim C1 witness: the theorem applied at nesting 0, fuel 3 and two
active lanes. -/
theorem break_cont_emission_and_loop_exits_once_witness :
    (∀ e ∈ ([0, 0] : List Nat), e = 0) ∧ 0 < 3 ∧
    (∀ e ∈ (lowerLoopRun (jumpStep 0 false) 3 [0, 0]).1, e = 0 + 2) ∧
    (lowerLoopRun (jumpStep 0 false) 3 [0, 0]).2 = 1 := by
  have h := break_cont_emission_and_loop_exits_once 0 3 [0, 0]
    (by decide) (by decide)
  exact ⟨by decide, by decide, h.2.2.1, h.2.2.2.2⟩

/-- Claim C2: for a tg4 gather, destination component i is assigned from
the hardware sample slot given by the fixed permutation [2, 3, 1, 0]
(offset sample_map i * 4 + component within the returned sample data),
a permutation of the four hardware slots. -/
theorem gather_sample_reorder (component : Nat) :
    rogue_nir_emit_gather component =
      [⟨0, 2 * 4 + component⟩, ⟨1, 3 * 4 + component⟩,
       ⟨2, 1 * 4 + component⟩, ⟨3, 0 * 4 + component⟩] ∧
    sample_map = [2, 3, 1, 0] ∧
    sample_map.Perm [0, 1, 2, 3] := by
  refine ⟨?_, rfl, by decide⟩
  simp [rogue_nir_emit_gather, sample_map, List.range_succ]

/-- Claim C3 counterexample: an indexed register operand with declared
stride 1 (expected size 2) receives no size error, although the claimed
register-array size (1 for a plain register) differs from the expected
size, so the "error if and only if size differs" statement is false at
this operand. -/
theorem indexed_reg_escapes_size_check :
    ¬ ((validate_ref_size (.reg true) (some 1) 1 false 1 false ≠ []) ↔
       (ValRef.claimSize (.reg true) ≠ (1 + 1) * 1 * 1)) := by
  decide

/-- Claim C3 (amended): with a declared stride, a register-array operand
gets a size error exactly when its size differs from (stride + 1) times
the repeat count (when repeat-masked) times the value-number (when
value-number-masked); a plain non-indexed register gets an error exactly
when that expected size exceeds 1; indexed registers, operands without a
declared stride and non-register operands get no size error. -/
theorem operand_size_validation (s rpt valnum : Nat) (rm vm : Bool) :
    (∀ sz, validate_ref_size (.regarray sz) (some s) rpt rm valnum vm ≠ []
        ↔ sz ≠ validateSize s rpt rm valnum vm) ∧
    (validate_ref_size (.reg false) (some s) rpt rm valnum vm ≠ []
        ↔ 1 < validateSize s rpt rm valnum vm) ∧
    (validate_ref_size (.reg true) (some s) rpt rm valnum vm = []) ∧
    (∀ ref, validate_ref_size ref none rpt rm valnum vm = []) ∧
    (validate_ref_size .imm (some s) rpt rm valnum vm = []) ∧
    (validate_ref_size .val (some s) rpt rm valnum vm = []) ∧
    (validate_ref_size .io (some s) rpt rm valnum vm = []) ∧
    (validate_ref_size .drc (some s) rpt rm valnum vm = []) := by
  refine ⟨?_, ?_, ?_, ?_, rfl, rfl, rfl, rfl⟩
  · intro sz
    simp only [validate_ref_size, ValRef.isRegOrRegarray, validateSize]
    split_ifs <;> simp_all
  · simp only [validate_ref_size, ValRef.isRegOrRegarray, validateSize]
    split_ifs <;> simp_all
  · simp [validate_ref_size, ValRef.isRegOrRegarray]
  · intro ref; rfl

/-- Claim C4 counterexample: an unpack instruction with repeat 1 and two
element selectors set (E0 and E1) passes validation without error, so
the claimed "exactly one element selector with repeat 1" requirement is
not what the validator enforces. -/
theorem two_elems_one_repeat_accepted :
    validate_alu_instr_UPCK ⟨true, true, false, false⟩ 1 = [] ∧
    UpckElems.count ⟨true, true, false, false⟩ ≠ 1 := by
  decide

/-- Claim C4 (amended): for an unpack instruction the validator reports
an error exactly when some element selector is set with repeat greater
than 1, or none is set with repeat equal to 1 (so repeat 1 requires at
least one selector, not exactly one). -/
theorem upck_element_validation (m : UpckElems) (rpt : Nat) :
    validate_alu_instr_UPCK m rpt ≠ [] ↔
      ((m.e0 || m.e1 || m.e2 || m.e3) = true ∧ 1 < rpt) ∨
      ((m.e0 || m.e1 || m.e2 || m.e3) = false ∧ rpt = 1) := by
  simp only [validate_alu_instr_UPCK]
  split <;> rename_i h₁
  · simp_all
  · split <;> rename_i h₂ <;> simp_all

/-- Claim C5: block validation reports an error on an empty block, on a
block with more than one block-ending instruction, and on a single
block-ender that is not the last instruction; a block with zero
block-enders is accepted exactly when the immediately following block
consists of a single instruction; and a block passes with no errors
exactly when it is non-empty and either (zero enders and singleton next
block) or (one ender which is the last instruction). -/
theorem block_validation (instrs : List Bool) (nextBlockLen : Nat) :
    (validate_block instrs nextBlockLen = [] ↔
      instrs ≠ [] ∧
      ((instrs.count true = 0 ∧ nextBlockLen = 1) ∨
       (instrs.count true = 1 ∧ instrs.getLastD false = true))) ∧
    (BlockErr.empty ∈ validate_block instrs nextBlockLen ↔ instrs = []) ∧
    (BlockErr.noEndInstr ∈ validate_block instrs nextBlockLen ↔
      instrs ≠ [] ∧ instrs.count true = 0 ∧ nextBlockLen ≠ 1) ∧
    (BlockErr.multipleEndInstrs ∈ validate_block instrs nextBlockLen ↔
      instrs ≠ [] ∧ 1 < instrs.count true) ∧
    (BlockErr.endBeforeLast ∈ validate_block instrs nextBlockLen ↔
      instrs ≠ [] ∧ instrs.count true = 1 ∧
        instrs.getLastD false = false) := by
  simp only [validate_block, List.isEmpty_iff]
  split <;> rename_i hemp
  · subst hemp; simp
  · split <;> rename_i h0
    · split <;> rename_i hn <;> simp_all
    · split <;> rename_i h1
      · simp_all
        omega
      · split <;> rename_i hl <;> simp_all <;> omega

/-- Claim C6: the ALU type-conversion translation emits an instruction
exactly when the (type, bits, components, rounding, saturate) key
matches a dispatch-table entry, and otherwise takes the hard
unsupported-input failure path. -/
theorem conversion_table_exhaustive (k : ConvKey) :
    ((∃ e, trans_nir_intrinsic_convert_alu_types k = .ok e) ↔
      k ∈ convTable) ∧
    (k ∉ convTable →
      trans_nir_intrinsic_convert_alu_types k =
        .error "Unsupported conversion") := by
  have hdis : (convert_alu_types_dispatch k).isSome = true ↔ k ∈ convTable := by
    simp only [convert_alu_types_dispatch, convTable, List.mem_append]
    split_ifs <;> simp_all
  constructor
  · rw [← hdis]
    cases h : convert_alu_types_dispatch k <;>
      simp [trans_nir_intrinsic_convert_alu_types, h]
  · intro hk
    rw [← hdis] at hk
    cases h : convert_alu_types_dispatch k <;>
      simp_all [trans_nir_intrinsic_convert_alu_types, h]

/-- Claim C6 witness: a table entry (signed 8-to-16 widening) is
translated, and 64-bit float narrowing, absent from the table, hits the
failure path. -/
theorem conversion_table_exhaustive_witness :
    (conv .float 64 1 .float 32 1 .undef false ∉ convTable) ∧
    trans_nir_intrinsic_convert_alu_types
        (conv .float 64 1 .float 32 1 .undef false) =
      .error "Unsupported conversion" ∧
    (∃ e, trans_nir_intrinsic_convert_alu_types
        (conv .int 8 1 .int 16 1 .undef false) = .ok e) := by
  refine ⟨by decide, ?_, ?_⟩
  · exact (conversion_table_exhaustive _).2 (by decide)
  · exact (conversion_table_exhaustive _).1.mpr (by decide)

/-- Claim C7 counterexample: the claimed step list (which includes
redundant-copy elimination and two dead-instruction eliminations) is
not a subsequence of the pass sequence rogue_shader_passes actually
runs: the copy-prop and DCE invocations are commented out. -/
theorem claimed_pass_order_not_run :
    ¬ List.Sublist claimedPassOrder rogue_shader_passes := by
  intro h
  have hmem : RoguePass.copyProp ∈ rogue_shader_passes :=
    h.subset (by decide)
  exact absurd hmem (by decide)

/-- Claim C7 (amended): rogue_shader_passes runs the fixed sequence
constant re-materialization, store-register scheduling,
pseudo-instruction lowering, constant re-materialization again, the two
write-back scheduling sub-passes, dead-block trimming, register
allocation, late pseudo-op lowering and final instruction-group
scheduling; the claimed order with the commented-out copy-prop and DCE
steps removed is a subsequence, and no copy-prop or DCE pass runs. -/
theorem pass_pipeline_order :
    rogue_shader_passes =
      [.constreg, .scheduleStRegs, .lowerPseudoOps, .constreg,
       .scheduleWdf, .scheduleUvsw, .trim, .regalloc, .lowerLateOps,
       .scheduleInstrGroups] ∧
    List.Sublist amendedPassOrder rogue_shader_passes ∧
    RoguePass.copyProp ∉ rogue_shader_passes ∧
    RoguePass.dce ∉ rogue_shader_passes := by
  refine ⟨rfl, ?_, by decide, by decide⟩
  decide

/-- Claim C8: every execution-mask-counter manipulation instruction
emitted by the mask initialisation and by if/else and loop lowering
carries the any-lane execution condition (PE_ANY), provided the
recursively translated bodies already satisfy this. -/
theorem emc_manip_any_lane
    (emcInit : Bool) (condReg : Nat) (hasThen hasElse brSkip : Bool)
    (thenBody elseBody body : List Instr)
    (hThen : EmcOk thenBody) (hElse : EmcOk elseBody)
    (hBody : EmcOk body) :
    EmcOk (rogue_init_emc emcInit) ∧
    EmcOk (trans_nir_if emcInit condReg hasThen hasElse
      thenBody elseBody brSkip) ∧
    EmcOk (trans_nir_loop emcInit body) := by
  refine ⟨emcOk_init _, ?_, ?_⟩
  · exact emcOk_append
      (emcOk_append
        (emcOk_append
          (emcOk_append
            (emcOk_append
              (emcOk_append
                (emcOk_append (emcOk_init _)
                  (emcOk_cons_not_manip rfl
                    (emcOk_cons_peAny rfl emcOk_nil)))
                (emcOk_ite _ (emcOk_cons_not_manip rfl emcOk_nil)
                  emcOk_nil))
              (emcOk_ite _ hThen emcOk_nil))
            (emcOk_ite _ (emcOk_cons_peAny rfl emcOk_nil) emcOk_nil))
          (emcOk_ite _ (emcOk_cons_not_manip rfl emcOk_nil) emcOk_nil))
        (emcOk_ite _ hElse emcOk_nil))
      (emcOk_cons_peAny rfl emcOk_nil)
  · exact emcOk_append
      (emcOk_append
        (emcOk_append (emcOk_init _)
          (emcOk_cons_peAny rfl (emcOk_cons_not_manip rfl emcOk_nil)))
        hBody)
      (emcOk_cons_peAny rfl
        (emcOk_cons_peAny rfl
          (emcOk_cons_peAny rfl (emcOk_cons_not_manip rfl emcOk_nil))))

/-- Claim C8 witness: the theorem applied with empty bodies and concrete
flags. -/
theorem emc_manip_any_lane_witness :
    EmcOk (trans_nir_loop false []) :=
  (emc_manip_any_lane false 0 true false false [] [] []
    emcOk_nil emcOk_nil emcOk_nil).2.2

/-- Claim C9: a vertex-shader input load with a pipeline layout present
emits a move of the immediate float 1.0 when the requested component is
not provided by the driver for that location, and otherwise a move from
vertex-input register base[input] + component. -/
theorem load_input_vs_component_fallback
    (vsInputs : VertexInputs) (input component : Nat) :
    (vsInputs.components input ≤ component →
      trans_nir_intrinsic_load_input_vs vsInputs input component =
        .movImmF1) ∧
    (component < vsInputs.components input →
      trans_nir_intrinsic_load_input_vs vsInputs input component =
        .movVtxin (vsInputs.base input + component)) := by
  constructor
  · intro h
    simp [trans_nir_intrinsic_load_input_vs, h]
  · intro h
    rw [trans_nir_intrinsic_load_input_vs, if_neg (by omega)]

/-- Claim C9 witness: the theorem applied at a layout providing two
components at base 10, for components 3 (missing) and 1 (present). -/
theorem load_input_vs_component_fallback_witness :
    trans_nir_intrinsic_load_input_vs
        ⟨1, fun _ => 2, fun _ => 10⟩ 0 3 = .movImmF1 ∧
    trans_nir_intrinsic_load_input_vs
        ⟨1, fun _ => 2, fun _ => 10⟩ 0 1 = .movVtxin 11 :=
  ⟨(load_input_vs_component_fallback ⟨1, fun _ => 2, fun _ => 10⟩ 0 3).1
      (by norm_num),
   (load_input_vs_component_fallback ⟨1, fun _ => 2, fun _ => 10⟩ 0 1).2
      (by norm_num)⟩

/-- Claim C10: mutex translation succeeds from the released state exactly
when the lock/release ops strictly alternate starting with a lock; a
lock requires released and yields locked, a release requires locked and
yields released, and a double lock or an initial release fails its
assertion. -/
theorem mutex_lock_release_alternate (ops : List MutexOp) :
    ((transMutexSeq .released ops).isSome = true ↔
      alternatesFrom .released ops = true) ∧
    trans_nir_intrinsic_mutex_img .released .lock = some .locked ∧
    trans_nir_intrinsic_mutex_img .locked .release = some .released ∧
    trans_nir_intrinsic_mutex_img .locked .lock = none ∧
    trans_nir_intrinsic_mutex_img .released .release = none ∧
    transMutexSeq .released [.lock, .lock] = none ∧
    transMutexSeq .released [.release] = none :=
  ⟨transMutexSeq_isSome .released ops, rfl, rfl, rfl, rfl, rfl, rfl⟩

end Rogue
